import Mathlib

/-!
# Verification of `mcp_atlassian.utils.rate_limit`

A shallow embedding of `src/mcp_atlassian/utils/rate_limit.py` in Lean 4,
together with theorems settling the specification claims about it.

Modelling conventions:
* Python `float` values are modelled as `ℚ` (exact rational arithmetic over
  the real-number semantics of the algorithm; IEEE rounding is out of scope).
* Python `int` values are modelled as `Int`.
* `time.monotonic()` readings are passed explicitly as `ℚ` arguments, so every
  method that reads the clock takes a `now` parameter.
* Mutation is modelled by explicit state passing: a Python method that mutates
  `self` becomes a Lean function returning the updated structure (paired with
  the Python return value where there is one).
-/

namespace RateLimit

/-- Embedding of the `RateLimitConfig` dataclass (rate_limit.py, lines 21-35).
A plain record of four fields; the dataclass performs no validation of any
kind, so the embedding is a bare structure. -/
structure RateLimitConfig where
  requests_per_second : ℚ
  burst_capacity : Int
  backoff_base : ℚ
  max_retries : Int
deriving Repr, DecidableEq

/-- The dataclass defaults (`10.0`, `20`, `1.0`, `5`). -/
def RateLimitConfig.default : RateLimitConfig :=
  { requests_per_second := 10
    burst_capacity := 20
    backoff_base := 1
    max_retries := 5 }

/-- Embedding of the mutable state of a `TokenBucket` (rate_limit.py,
lines 142-164): the stored config, the current token count and the timestamp
of the last refill.  The two locks (`_lock`, `_async_lock`) only serialize
access to this state and carry no data, so they do not appear in the state. -/
structure TokenBucket where
  config : RateLimitConfig
  tokens : ℚ
  last_refill : ℚ
deriving Repr, DecidableEq

/-- `TokenBucket.__init__` (lines 154-164): stores the config unchanged,
sets `tokens = float(config.burst_capacity)` and `last_refill` to the current
monotonic time.  No field of the config is validated. -/
def TokenBucket.init (config : RateLimitConfig) (now : ℚ) : TokenBucket :=
  { config := config
    tokens := (config.burst_capacity : ℚ)
    last_refill := now }

/-- `TokenBucket._refill` (lines 172-178): add `elapsed * requests_per_second`
tokens, clamped above by `burst_capacity`, and record the clock reading. -/
def TokenBucket.refill (b : TokenBucket) (now : ℚ) : TokenBucket :=
  let elapsed := now - b.last_refill
  let tokens_to_add := elapsed * b.config.requests_per_second
  { b with
    tokens := min (b.config.burst_capacity : ℚ) (b.tokens + tokens_to_add)
    last_refill := now }

/-- `TokenBucket.get_wait_time` (lines 180-192): refill, then return `0.0`
when at least one token is available, and otherwise
`(1.0 - tokens) / requests_per_second`.  Returns the Python return value
paired with the post-state. -/
def TokenBucket.get_wait_time (b : TokenBucket) (now : ℚ) : ℚ × TokenBucket :=
  let b' := b.refill now
  if 1 ≤ b'.tokens then (0, b')
  else ((1 - b'.tokens) / b'.config.requests_per_second, b')

/-- `TokenBucket.try_acquire` (lines 194-205): refill, then consume exactly
one token and return `True` when at least one token is available, and
otherwise return `False` leaving the refilled state untouched. -/
def TokenBucket.try_acquire (b : TokenBucket) (now : ℚ) : Bool × TokenBucket :=
  let b' := b.refill now
  if 1 ≤ b'.tokens then (true, { b' with tokens := b'.tokens - 1 })
  else (false, b')

/-- One externally triggered token-bucket operation, for reasoning about
arbitrary call sequences: a `try_acquire` call or a bare `_refill`
(each paired, in `runOps`, with the monotonic clock reading it observes). -/
inductive BucketOp
  | tryAcquireOp
  | refillOp
deriving Repr, DecidableEq

/-- Apply one `BucketOp` at clock reading `t`, keeping only the state
(the `Bool` result of `try_acquire` is irrelevant to the state invariant). -/
def TokenBucket.step (b : TokenBucket) (op : BucketOp) (t : ℚ) : TokenBucket :=
  match op with
  | .tryAcquireOp => (b.try_acquire t).2
  | .refillOp => b.refill t

/-- Run a finite sequence of operations, each with its clock reading. -/
def TokenBucket.runOps (b : TokenBucket) : List (BucketOp × ℚ) → TokenBucket
  | [] => b
  | (op, t) :: rest => (b.step op t).runOps rest

/-- The clock readings fed to a run are admissible: each reading is at least
the state's `last_refill` at the moment it is observed.  This is exactly the
guarantee `time.monotonic()` gives, since `last_refill` always holds an
earlier `time.monotonic()` reading. -/
def TokenBucket.ClockOk (b : TokenBucket) : List (BucketOp × ℚ) → Prop
  | [] => True
  | (op, t) :: rest => b.last_refill ≤ t ∧ (b.step op t).ClockOk rest

instance (b : TokenBucket) (ops : List (BucketOp × ℚ)) :
    Decidable (b.ClockOk ops) := by
  induction ops generalizing b with
  | nil => exact isTrue trivial
  | cons p rest ih =>
    obtain ⟨op, t⟩ := p
    exact @instDecidableAnd _ _ inferInstance (ih (b.step op t))

/-- The bucket state invariant: tokens within `[0, burstCapacity]`, together
with the configuration facts (positive rate and capacity) that make the
invariant inductive. -/
def TokenBucket.WF (b : TokenBucket) : Prop :=
  0 < b.config.requests_per_second ∧ 0 < b.config.burst_capacity ∧
    0 ≤ b.tokens ∧ b.tokens ≤ (b.config.burst_capacity : ℚ)

instance (b : TokenBucket) : Decidable b.WF := by
  unfold TokenBucket.WF; infer_instance

theorem TokenBucket.refill_config (b : TokenBucket) (now : ℚ) :
    (b.refill now).config = b.config := rfl

theorem TokenBucket.refill_last (b : TokenBucket) (now : ℚ) :
    (b.refill now).last_refill = now := rfl

/-- Refilling at an admissible clock reading preserves the invariant. -/
theorem TokenBucket.refill_WF (b : TokenBucket) (now : ℚ)
    (hb : b.WF) (ht : b.last_refill ≤ now) : (b.refill now).WF := by
  obtain ⟨hrps, hcap, h0, _⟩ := hb
  refine ⟨hrps, hcap, ?_, ?_⟩
  · have hadd : 0 ≤ (now - b.last_refill) * b.config.requests_per_second :=
      mul_nonneg (by linarith) (le_of_lt hrps)
    have hcapQ : (0 : ℚ) ≤ (b.config.burst_capacity : ℚ) := by
      exact_mod_cast le_of_lt hcap
    simp only [refill]
    exact le_min hcapQ (by linarith)
  · simp only [refill]
    exact min_le_left _ _

/-- A `step` at an admissible clock reading preserves the invariant. -/
theorem TokenBucket.step_WF (b : TokenBucket) (op : BucketOp) (t : ℚ)
    (hb : b.WF) (ht : b.last_refill ≤ t) : (b.step op t).WF := by
  have href := b.refill_WF t hb ht
  cases op with
  | refillOp => exact href
  | tryAcquireOp =>
    simp only [step, try_acquire]
    by_cases h1 : 1 ≤ (b.refill t).tokens
    · rw [if_pos h1]
      obtain ⟨hrps, hcap, h0, hle⟩ := href
      refine ⟨hrps, hcap, ?_, ?_⟩
      · show (0 : ℚ) ≤ (b.refill t).tokens - 1
        linarith
      · show (b.refill t).tokens - 1 ≤ ((b.refill t).config.burst_capacity : ℚ)
        linarith
    · rw [if_neg h1]
      exact href

theorem TokenBucket.step_config (b : TokenBucket) (op : BucketOp) (t : ℚ) :
    (b.step op t).config = b.config := by
  cases op with
  | refillOp => rfl
  | tryAcquireOp =>
    simp only [step, try_acquire]
    split <;> rfl

/-- Running any admissible sequence of operations preserves the invariant. -/
theorem TokenBucket.runOps_WF (ops : List (BucketOp × ℚ)) (b : TokenBucket)
    (hb : b.WF) (hc : b.ClockOk ops) : (b.runOps ops).WF := by
  induction ops generalizing b with
  | nil => exact hb
  | cons p rest ih =>
    obtain ⟨op, t⟩ := p
    obtain ⟨ht, hrest⟩ := hc
    exact ih (b.step op t) (b.step_WF op t hb ht) hrest

/-- Admissibility restricts to prefixes. -/
theorem TokenBucket.ClockOk_take (ops : List (BucketOp × ℚ)) (b : TokenBucket)
    (hc : b.ClockOk ops) (n : Nat) : b.ClockOk (ops.take n) := by
  induction ops generalizing b n with
  | nil => simp [ClockOk]
  | cons p rest ih =>
    obtain ⟨op, t⟩ := p
    obtain ⟨ht, hrest⟩ := hc
    cases n with
    | zero => exact trivial
    | succ m => exact ⟨ht, ih (b.step op t) hrest m⟩

/-- A freshly constructed bucket satisfies the invariant whenever the policy
has positive rate and capacity. -/
theorem TokenBucket.init_WF (config : RateLimitConfig) (now : ℚ)
    (hrps : 0 < config.requests_per_second) (hcap : 0 < config.burst_capacity) :
    (TokenBucket.init config now).WF := by
  refine ⟨hrps, hcap, ?_, le_refl _⟩
  show (0 : ℚ) ≤ (config.burst_capacity : ℚ)
  exact_mod_cast le_of_lt hcap

/-- Transport-level faults that the underlying `HTTPAdapter.send` may raise
(connection error, timeout).  In Python these are exceptions; in the embedding
the underlying send returns `Except TransportFault HttpResponse`, and the
adapter propagating the exception is modelled by returning `.error`. -/
inductive TransportFault
  | connectionError
  | timeout
deriving Repr, DecidableEq

/-- Abstraction of a `Retry-After` header string, classified by how Python's
`float()` treats it: `num q` stands for a string that `float()` parses to the
finite value `q` — signs included, so "30", "2.5" and "-5" are all `num`;
`nonNumeric` stands for a string on which `float()` raises `ValueError`
(e.g. an HTTP date).  Strings parsing to infinities or NaN are outside the
model. -/
inductive HeaderStr
  | num (q : ℚ)
  | nonNumeric
deriving Repr, DecidableEq

/-- The slice of a `requests.Response` that the adapter inspects:
`status_code` and `headers.get("Retry-After")`. -/
structure HttpResponse where
  status_code : Int
  retry_after : Option HeaderStr
deriving Repr, DecidableEq

/-- `RateLimitedAdapter._parse_retry_after` (rate_limit.py, lines 336-357):
`headers.get("Retry-After")` missing gives `None`; otherwise `float(value)`
is attempted, its result returned on success, and `None` returned when
`ValueError` is raised.  Note the code performs no sign check: a negative
numeric string parses and is returned. -/
def RateLimitedAdapter.parse_retry_after (response : HttpResponse) : Option ℚ :=
  match response.retry_after with
  | none => none
  | some (.num q) => some q
  | some .nonNumeric => none

/-- Errors that propagate uncaught out of `RateLimitedAdapter.send`:
a transport-level fault raised by the underlying `HTTPAdapter.send`, or the
`ValueError` that CPython's `time.sleep` raises when `wait_time` is negative
("sleep length must be non-negative"). -/
inductive SendError
  | transport (f : TransportFault)
  | negativeSleep (seconds : ℚ)
deriving Repr, DecidableEq

/-- Observable events of one `RateLimitedAdapter.send` call, in order:
`acquire` for `self.rate_limiter.acquire()`, `underlyingSend i` for the call
to `HTTPAdapter.send` consuming the i-th outcome of the remote, and
`sleep q` for a completed `time.sleep(wait_time)` with `wait_time = q`. -/
inductive SendEvent
  | acquire
  | underlyingSend (idx : Nat)
  | sleep (seconds : ℚ)
deriving Repr, DecidableEq

/-- The retry loop of `RateLimitedAdapter.send` (rate_limit.py, lines
291-334), parameterized by the remote: `underlying i` is the outcome of the
(i+1)-th underlying `HTTPAdapter.send` (a transport fault or a response).

State of the loop: `idx` counts underlying sends performed so far and
`retries` is the Python local `retries` (number of 429 responses handled so
far).  The returned trace lists the events of this and later iterations.
Per iteration, matching the source line by line:
* `self.rate_limiter.acquire()` — recorded as `.acquire` (the token bucket
  shares no state with the retry logic, so only the event is kept);
* `response = super().send(...)` — a raised transport fault propagates,
  uncaught, out of the loop;
* `if response.status_code != 429: return response`;
* `retries += 1; if retries > self.config.max_retries: return response`;
* `retry_after = self._parse_retry_after(response)`; `wait_time` is
  `retry_after` when not `None`, else
  `self.config.backoff_base * (2 ** (retries - 1))` — here `retries` has
  already been incremented, so with our pre-increment counter the exponent
  `retries - 1` is the Lean `retries`;
* `time.sleep(wait_time)` — CPython's `time.sleep` raises `ValueError` when
  `wait_time < 0`, and that exception propagates uncaught out of `send`: no
  sleep happens and no request is resent, modelled as
  `.error (.negativeSleep wait_time)` with no `.sleep` event; for
  `wait_time ≥ 0` the sleep completes, recorded as `.sleep wait_time`, and
  the loop continues. -/
def RateLimitedAdapter.send_loop (cfg : RateLimitConfig)
    (underlying : Nat → Except TransportFault HttpResponse)
    (idx : Nat) (retries : Nat) :
    Except SendError HttpResponse × List SendEvent :=
  match underlying idx with
  | .error f => (.error (.transport f), [.acquire, .underlyingSend idx])
  | .ok response =>
    if response.status_code ≠ 429 then
      (.ok response, [.acquire, .underlyingSend idx])
    else if h : ((retries + 1 : Nat) : Int) > cfg.max_retries then
      (.ok response, [.acquire, .underlyingSend idx])
    else
      let wait_time :=
        match RateLimitedAdapter.parse_retry_after response with
        | some retry_after => retry_after
        | none => cfg.backoff_base * 2 ^ retries
      if wait_time < 0 then
        (.error (.negativeSleep wait_time), [.acquire, .underlyingSend idx])
      else
        let rest := RateLimitedAdapter.send_loop cfg underlying (idx + 1) (retries + 1)
        (rest.1, .acquire :: .underlyingSend idx :: .sleep wait_time :: rest.2)
termination_by (cfg.max_retries + 1 - retries).toNat
decreasing_by
  simp_wf
  omega

/-- `RateLimitedAdapter.send`: enter the loop with `retries = 0` and no
underlying send performed yet. -/
def RateLimitedAdapter.send (cfg : RateLimitConfig)
    (underlying : Nat → Except TransportFault HttpResponse) :
    Except SendError HttpResponse × List SendEvent :=
  RateLimitedAdapter.send_loop cfg underlying 0 0

/-- Number of underlying sends recorded in a trace. -/
def sendCount : List SendEvent → Nat
  | [] => 0
  | .underlyingSend _ :: rest => sendCount rest + 1
  | .acquire :: rest => sendCount rest
  | .sleep _ :: rest => sendCount rest

/-- The waits (`time.sleep` durations) recorded in a trace, in order. -/
def sleeps : List SendEvent → List ℚ
  | [] => []
  | .sleep q :: rest => q :: sleeps rest
  | .acquire :: rest => sleeps rest
  | .underlyingSend _ :: rest => sleeps rest

end RateLimit

namespace RateLimit

theorem TokenBucket.runOps_config (ops : List (BucketOp × ℚ)) (b : TokenBucket) :
    (b.runOps ops).config = b.config := by
  induction ops generalizing b with
  | nil => rfl
  | cons p rest ih =>
    obtain ⟨op, t⟩ := p
    rw [runOps, ih, step_config]

/-- **C2**: for every finite sequence of `tryAcquire`/`refill` calls on a
bucket constructed from a policy with `burstCapacity > 0` and
`requestsPerSecond > 0`, and for every admissible (non-decreasing, at least
the construction time) sequence of monotonic clock readings, `tokens` stays
within `[0, burstCapacity]` at every observation point (i.e. after every
prefix of the call sequence). -/
theorem claim_C2_tokens_bounded (config : RateLimitConfig) (t0 : ℚ)
    (hrps : 0 < config.requests_per_second) (hcap : 0 < config.burst_capacity)
    (ops : List (BucketOp × ℚ))
    (hclock : (TokenBucket.init config t0).ClockOk ops) (n : Nat) :
    0 ≤ ((TokenBucket.init config t0).runOps (ops.take n)).tokens ∧
      ((TokenBucket.init config t0).runOps (ops.take n)).tokens ≤
        (config.burst_capacity : ℚ) := by
  have hwf := TokenBucket.runOps_WF (ops.take n) (TokenBucket.init config t0)
    (TokenBucket.init_WF config t0 hrps hcap)
    (TokenBucket.ClockOk_take ops (TokenBucket.init config t0) hclock n)
  obtain ⟨-, -, h0, hle⟩ := hwf
  rw [TokenBucket.runOps_config] at hle
  exact ⟨h0, hle⟩

/-- Witness for C2 at a concrete run: rate 2 tokens/s, capacity 3, with two
acquisitions and a refill at increasing times. -/
theorem claim_C2_tokens_bounded_witness :
    (0 : ℚ) < 2 ∧ (0 : Int) < 3 ∧
    (TokenBucket.init ⟨2, 3, 1, 5⟩ 0).ClockOk
      [(.tryAcquireOp, 0), (.tryAcquireOp, 1), (.refillOp, 2)] ∧
    (0 ≤ ((TokenBucket.init ⟨2, 3, 1, 5⟩ 0).runOps
        ([(.tryAcquireOp, 0), (.tryAcquireOp, 1), (.refillOp, 2)].take 2)).tokens ∧
      ((TokenBucket.init ⟨2, 3, 1, 5⟩ 0).runOps
        ([(.tryAcquireOp, 0), (.tryAcquireOp, 1), (.refillOp, 2)].take 2)).tokens ≤
        ((3 : Int) : ℚ)) := by
  have hck : (TokenBucket.init ⟨2, 3, 1, 5⟩ 0).ClockOk
      [(.tryAcquireOp, 0), (.tryAcquireOp, 1), (.refillOp, 2)] := by
    simp only [TokenBucket.ClockOk, TokenBucket.step, TokenBucket.try_acquire,
      TokenBucket.refill, TokenBucket.init]
    norm_num
  exact ⟨by norm_num, by norm_num, hck,
    claim_C2_tokens_bounded ⟨2, 3, 1, 5⟩ 0 (by norm_num) (by norm_num)
      [(.tryAcquireOp, 0), (.tryAcquireOp, 1), (.refillOp, 2)] hck 2⟩

/-- **C7**: `get_wait_time` first refills; it returns `0.0` when the refilled
bucket has at least one token, and otherwise returns exactly
`(1.0 - tokens) / requestsPerSecond`, which is the exact time until one full
token is available: refilling again after waiting that long yields exactly
one token. -/
theorem claim_C7_wait_time (b : TokenBucket) (now : ℚ)
    (hrps : 0 < b.config.requests_per_second)
    (hcap : 1 ≤ (b.config.burst_capacity : ℚ)) :
    (b.get_wait_time now).2 = b.refill now ∧
    (1 ≤ (b.refill now).tokens → (b.get_wait_time now).1 = 0) ∧
    ((b.refill now).tokens < 1 →
      (b.get_wait_time now).1 =
        (1 - (b.refill now).tokens) / b.config.requests_per_second ∧
      ((b.refill now).refill (now + (b.get_wait_time now).1)).tokens = 1) := by
  refine ⟨?_, ?_, ?_⟩
  · simp only [TokenBucket.get_wait_time]
    split <;> rfl
  · intro h1
    simp only [TokenBucket.get_wait_time]
    rw [if_pos h1]
  · intro h1
    have hne : ¬ 1 ≤ (b.refill now).tokens := not_le.mpr h1
    have hval : (b.get_wait_time now).1 =
        (1 - (b.refill now).tokens) / b.config.requests_per_second := by
      simp only [TokenBucket.get_wait_time]
      rw [if_neg hne]
      rfl
    refine ⟨hval, ?_⟩
    rw [hval]
    set b' := b.refill now with hb'
    have hcfg : b'.config = b.config := rfl
    have hlast : b'.last_refill = now := rfl
    have hne0 : b.config.requests_per_second ≠ 0 := ne_of_gt hrps
    have key : b'.tokens +
        (now + (1 - b'.tokens) / b.config.requests_per_second - now) *
          b.config.requests_per_second = 1 := by
      field_simp
      ring
    simp only [TokenBucket.refill]
    rw [hcfg, hlast, key]
    exact min_eq_right hcap

/-- Witness for C7 at a concrete bucket: rate 2 tokens/s, capacity 3,
half a token left, clock at 5 (no elapsed time). -/
theorem claim_C7_wait_time_witness :
    (0 : ℚ) < 2 ∧ (1 : ℚ) ≤ ((3 : Int) : ℚ) ∧
    (let b : TokenBucket := ⟨⟨2, 3, 1, 5⟩, 1/2, 5⟩
     (b.get_wait_time 5).2 = b.refill 5 ∧
     (1 ≤ (b.refill 5).tokens → (b.get_wait_time 5).1 = 0) ∧
     ((b.refill 5).tokens < 1 →
       (b.get_wait_time 5).1 = (1 - (b.refill 5).tokens) / (2 : ℚ) ∧
       ((b.refill 5).refill (5 + (b.get_wait_time 5).1)).tokens = 1)) :=
  ⟨by norm_num, by norm_num,
    claim_C7_wait_time ⟨⟨2, 3, 1, 5⟩, 1/2, 5⟩ 5 (by norm_num) (by norm_num)⟩

/-- **C8**: `try_acquire` first refills; it returns `True` exactly when the
refilled bucket has at least one token, in which case exactly `1.0` token is
subtracted; otherwise it returns `False` and the state is exactly the
refilled state (no token consumed). -/
theorem claim_C8_try_acquire (b : TokenBucket) (now : ℚ) :
    ((b.try_acquire now).1 = true ↔ 1 ≤ (b.refill now).tokens) ∧
    (1 ≤ (b.refill now).tokens →
      (b.try_acquire now).2.tokens = (b.refill now).tokens - 1 ∧
      (b.try_acquire now).2.config = b.config ∧
      (b.try_acquire now).2.last_refill = now) ∧
    ((b.refill now).tokens < 1 → (b.try_acquire now).2 = b.refill now) := by
  refine ⟨?_, ?_, ?_⟩
  · simp only [TokenBucket.try_acquire]
    split_ifs with h
    · simp [h]
    · simp [h]
  · intro h1
    simp only [TokenBucket.try_acquire]
    rw [if_pos h1]
    exact ⟨rfl, rfl, rfl⟩
  · intro h1
    simp only [TokenBucket.try_acquire]
    rw [if_neg (not_le.mpr h1)]

/-- A remote that always answers HTTP 429 with no `Retry-After` header. -/
def Always429 (underlying : Nat → Except TransportFault HttpResponse) : Prop :=
  ∀ i, ∃ r, underlying i = .ok r ∧ r.status_code = 429 ∧ r.retry_after = none

/-- Shape of one `send_loop` iteration against an always-429 remote, for a
non-negative backoff base (so every exponential-backoff sleep completes):
`n` is the number of retries still permitted,
i.e. `(max_retries - retries).toNat`. -/
theorem send_loop_always429 (cfg : RateLimitConfig)
    (underlying : Nat → Except TransportFault HttpResponse)
    (h429 : Always429 underlying) (hbb : 0 ≤ cfg.backoff_base) (n : Nat) :
    ∀ idx retries : Nat, (cfg.max_retries - retries).toNat = n →
      (retries : Int) ≤ cfg.max_retries →
      sendCount (RateLimitedAdapter.send_loop cfg underlying idx retries).2 = n + 1 ∧
      sleeps (RateLimitedAdapter.send_loop cfg underlying idx retries).2 =
        (List.range' retries n).map (fun k => cfg.backoff_base * 2 ^ k) ∧
      ∀ r, underlying (idx + n) = .ok r →
        (RateLimitedAdapter.send_loop cfg underlying idx retries).1 = .ok r := by
  induction n with
  | zero =>
    intro idx retries hn hle
    obtain ⟨r, hu, hs, -⟩ := h429 idx
    have hterm : ((retries + 1 : Nat) : Int) > cfg.max_retries := by omega
    rw [RateLimitedAdapter.send_loop.eq_def, hu]
    simp only [hs]
    rw [if_neg (by simp), dif_pos hterm]
    refine ⟨rfl, rfl, ?_⟩
    intro r' hr'
    rw [Nat.add_zero, hu] at hr'
    injection hr' with h
    show Except.ok r = Except.ok r'
    rw [h]
  | succ n ih =>
    intro idx retries hn hle
    obtain ⟨r, hu, hs, hh⟩ := h429 idx
    have hterm : ¬ ((retries + 1 : Nat) : Int) > cfg.max_retries := by omega
    have hnneg : ¬ cfg.backoff_base * 2 ^ retries < 0 :=
      not_lt.mpr (mul_nonneg hbb (pow_nonneg (by norm_num) retries))
    obtain ⟨ihc, ihs, ihr⟩ := ih (idx + 1) (retries + 1) (by omega) (by omega)
    rw [RateLimitedAdapter.send_loop.eq_def, hu]
    simp only [hs]
    rw [if_neg (by simp), dif_neg hterm]
    simp only [RateLimitedAdapter.parse_retry_after, hh]
    rw [if_neg hnneg]
    refine ⟨?_, ?_, ?_⟩
    · simp only [sendCount, ihc]
    · simp only [sleeps, ihs, List.range'_succ, List.map_cons]
    · intro r' hr'
      have hidx : idx + 1 + n = idx + (n + 1) := by omega
      exact ihr r' (by rw [hidx]; exact hr')

/-- **C1**: against a remote that always answers 429 with no `Retry-After`
header, and any configuration with `maxRetries ≥ 0` and a non-negative
`backoffBase` (the claim's scenario has `backoffBase = 1.0`, so every backoff
sleep completes), `send` performs exactly `maxRetries + 1` underlying sends,
sleeps exactly `backoffBase * 2^(k-1)` seconds before the k-th resend
(k = 1, 2, ...), and returns the final 429 response as a normal value (an
`.ok` result carrying status 429), not a fault.  In particular with
`backoffBase = 1` and `maxRetries = 3`: 4 sends, waits `1, 2, 4` (see the
witness). -/
theorem claim_C1_always429_retries_then_returns (cfg : RateLimitConfig)
    (underlying : Nat → Except TransportFault HttpResponse)
    (h429 : Always429 underlying) (hmr : 0 ≤ cfg.max_retries)
    (hbb : 0 ≤ cfg.backoff_base) :
    sendCount (RateLimitedAdapter.send cfg underlying).2 =
      cfg.max_retries.toNat + 1 ∧
    sleeps (RateLimitedAdapter.send cfg underlying).2 =
      (List.range' 0 cfg.max_retries.toNat).map
        (fun k => cfg.backoff_base * 2 ^ k) ∧
    ∃ r, (RateLimitedAdapter.send cfg underlying).1 = .ok r ∧
      r.status_code = 429 := by
  obtain ⟨hc, hs, hr⟩ := send_loop_always429 cfg underlying h429 hbb
    cfg.max_retries.toNat 0 0 (by omega) (by omega)
  refine ⟨hc, hs, ?_⟩
  obtain ⟨r, hu, hst, -⟩ := h429 (0 + cfg.max_retries.toNat)
  refine ⟨r, ?_, hst⟩
  show (RateLimitedAdapter.send_loop cfg underlying 0 0).1 = .ok r
  exact hr r hu

/-- Witness for C1: `backoffBase = 1`, `maxRetries = 3`, a remote always
answering a bare 429: four sends, waits `[1, 2, 4]`, final result the 429
response. -/
theorem claim_C1_always429_retries_then_returns_witness :
    Always429 (fun _ => .ok ⟨429, none⟩) ∧ (0 : Int) ≤ (3 : Int) ∧
    (0 : ℚ) ≤ (1 : ℚ) ∧
    (sendCount (RateLimitedAdapter.send ⟨10, 20, 1, 3⟩
        (fun _ => .ok ⟨429, none⟩)).2 = 4 ∧
     sleeps (RateLimitedAdapter.send ⟨10, 20, 1, 3⟩
        (fun _ => .ok ⟨429, none⟩)).2 = [1, 2, 4] ∧
     ∃ r, (RateLimitedAdapter.send ⟨10, 20, 1, 3⟩
        (fun _ => .ok ⟨429, none⟩)).1 = .ok r ∧ r.status_code = 429) := by
  have h429 : Always429 (fun _ => .ok ⟨429, none⟩) :=
    fun i => ⟨⟨429, none⟩, rfl, rfl, rfl⟩
  have hmain := claim_C1_always429_retries_then_returns ⟨10, 20, 1, 3⟩
    (fun _ => .ok ⟨429, none⟩) h429 (by norm_num) (by norm_num)
  refine ⟨h429, by norm_num, by norm_num, ?_, ?_, hmain.2.2⟩
  · rw [hmain.1]
    decide
  · rw [hmain.2.1]
    show List.map (fun k => (1 : ℚ) * 2 ^ k) (List.range' 0 3) = [1, 2, 4]
    have h3 : List.range' 0 3 = [0, 1, 2] := rfl
    rw [h3]
    norm_num

/-- A remote answering one 429 carrying the given `Retry-After` header slot,
then a 200. -/
def remoteWithHeader (ra : Option HeaderStr) :
    Nat → Except TransportFault HttpResponse :=
  fun i => if i = 0 then .ok ⟨429, ra⟩ else .ok ⟨200, none⟩

/-- **C3 counterexample**: the claim says a *negative* `Retry-After` value is
treated as absent, falling back to exponential backoff (here
`backoffBase * 2^0 = 1`, followed by a resend of the request).  The code
instead parses `"-5"` via `float()` — `_parse_retry_after` returns `-5`, not
`None` — and passes `-5` to `time.sleep`, which raises `ValueError`: the
error propagates out of `send`, no wait happens (no recorded sleep, let alone
the predicted backoff wait of `1`), and the request is never resent (exactly
one underlying send, where the claim predicts a resend after the wait).  The
"malformed headers never raise" part also fails for this header: `send`
raises. -/
theorem claim_C3_counterexample :
    RateLimitedAdapter.parse_retry_after ⟨429, some (.num (-5))⟩ = some (-5) ∧
    (RateLimitedAdapter.send ⟨10, 20, 1, 3⟩
      (remoteWithHeader (some (.num (-5))))).1 = .error (.negativeSleep (-5)) ∧
    sleeps (RateLimitedAdapter.send ⟨10, 20, 1, 3⟩
      (remoteWithHeader (some (.num (-5))))).2 = [] ∧
    sendCount (RateLimitedAdapter.send ⟨10, 20, 1, 3⟩
      (remoteWithHeader (some (.num (-5))))).2 = 1 := by
  refine ⟨rfl, ?_, ?_, ?_⟩ <;>
    simp [RateLimitedAdapter.send, RateLimitedAdapter.send_loop,
      remoteWithHeader, RateLimitedAdapter.parse_retry_after, sleeps, sendCount]

/-- **C3 amended**: for a 429 response handled in a non-terminal iteration
(`attemptCount` after increment still within `maxRetries`, and a non-negative
`backoffBase` as the valid-policy domain requires):
* a header parsing as a *non-negative* number of seconds is used verbatim as
  the wait before the resend;
* an absent or non-numeric header (e.g. an HTTP date) falls back to the
  exponential backoff `backoffBase * 2^(attemptCount - 1)` before the resend,
  and never raises (parsing is total and yields `None`);
* but a header parsing as a *negative* number is not treated as absent: the
  parsed value is passed to `time.sleep`, which raises `ValueError`; the
  error propagates out of `send` with no wait and no resend.
Here the Lean `retries` is the pre-increment counter, so
`attemptCount - 1 = retries`. -/
theorem claim_C3_retry_after_choice (cfg : RateLimitConfig)
    (underlying : Nat → Except TransportFault HttpResponse)
    (idx retries : Nat) (r : HttpResponse)
    (hu : underlying idx = .ok r) (hs : r.status_code = 429)
    (hcont : ¬ ((retries + 1 : Nat) : Int) > cfg.max_retries)
    (hbb : 0 ≤ cfg.backoff_base) :
    (∀ q, 0 ≤ q → r.retry_after = some (.num q) →
      (RateLimitedAdapter.send_loop cfg underlying idx retries).2 =
        .acquire :: .underlyingSend idx :: .sleep q ::
          (RateLimitedAdapter.send_loop cfg underlying (idx + 1) (retries + 1)).2) ∧
    ((r.retry_after = none ∨ r.retry_after = some .nonNumeric) →
      (RateLimitedAdapter.send_loop cfg underlying idx retries).2 =
        .acquire :: .underlyingSend idx ::
          .sleep (cfg.backoff_base * 2 ^ retries) ::
          (RateLimitedAdapter.send_loop cfg underlying (idx + 1) (retries + 1)).2) ∧
    (∀ q, q < 0 → r.retry_after = some (.num q) →
      RateLimitedAdapter.send_loop cfg underlying idx retries =
        (.error (.negativeSleep q), [.acquire, .underlyingSend idx])) := by
  refine ⟨?_, ?_, ?_⟩
  · intro q hq0 hq
    rw [RateLimitedAdapter.send_loop.eq_def, hu]
    simp only [hs]
    rw [if_neg (by simp), dif_neg hcont]
    simp only [RateLimitedAdapter.parse_retry_after, hq]
    rw [if_neg (not_lt.mpr hq0)]
  · intro hq
    have hnneg : ¬ cfg.backoff_base * 2 ^ retries < 0 :=
      not_lt.mpr (mul_nonneg hbb (pow_nonneg (by norm_num) retries))
    rw [RateLimitedAdapter.send_loop.eq_def, hu]
    simp only [hs]
    rw [if_neg (by simp), dif_neg hcont]
    rcases hq with hq | hq <;>
      · simp only [RateLimitedAdapter.parse_retry_after, hq]
        rw [if_neg hnneg]
  · intro q hq0 hq
    rw [RateLimitedAdapter.send_loop.eq_def, hu]
    simp only [hs]
    rw [if_neg (by simp), dif_neg hcont]
    simp only [RateLimitedAdapter.parse_retry_after, hq]
    rw [if_pos hq0]

/-- Witness for the amended C3: a 429 carrying `Retry-After: 7` at the first
attempt of a `maxRetries = 3` configuration waits exactly `7` before the
resend. -/
theorem claim_C3_retry_after_choice_witness :
    remoteWithHeader (some (.num 7)) 0 = .ok ⟨429, some (.num 7)⟩ ∧
    (⟨429, some (.num 7)⟩ : HttpResponse).status_code = 429 ∧
    ¬ (((0 + 1 : Nat) : Int) > (3 : Int)) ∧
    (0 : ℚ) ≤ (1 : ℚ) ∧ (0 : ℚ) ≤ (7 : ℚ) ∧
    (RateLimitedAdapter.send_loop ⟨10, 20, 1, 3⟩
        (remoteWithHeader (some (.num 7))) 0 0).2 =
      .acquire :: .underlyingSend 0 :: .sleep 7 ::
        (RateLimitedAdapter.send_loop ⟨10, 20, 1, 3⟩
          (remoteWithHeader (some (.num 7))) 1 1).2 :=
  ⟨rfl, rfl, by norm_num, by norm_num, by norm_num,
    (claim_C3_retry_after_choice ⟨10, 20, 1, 3⟩
      (remoteWithHeader (some (.num 7))) 0 0 ⟨429, some (.num 7)⟩
      rfl rfl (by norm_num) (by norm_num)).1 7 (by norm_num) rfl⟩

/-- **C9**: when the underlying transport send raises a transport-level
fault, `send_loop` propagates it at once: the result is the fault itself,
the trace shows exactly one (further) underlying send, no sleep, and no
retry is consumed — the outcome is the same for every value of the retry
counter, and the fault is never treated as a 429. -/
theorem claim_C9_fault_propagates (cfg : RateLimitConfig)
    (underlying : Nat → Except TransportFault HttpResponse)
    (idx retries : Nat) (f : TransportFault)
    (hf : underlying idx = .error f) :
    RateLimitedAdapter.send_loop cfg underlying idx retries =
      (.error (.transport f), [.acquire, .underlyingSend idx]) := by
  rw [RateLimitedAdapter.send_loop.eq_def, hf]

/-- Witness for C9: a remote whose first send raises a connection error. -/
theorem claim_C9_fault_propagates_witness :
    (fun _ : Nat => (.error .connectionError : Except TransportFault HttpResponse)) 0
      = .error .connectionError ∧
    RateLimitedAdapter.send_loop ⟨10, 20, 1, 5⟩
      (fun _ => .error .connectionError) 0 0 =
      (.error (.transport .connectionError), [.acquire, .underlyingSend 0]) :=
  ⟨rfl, claim_C9_fault_propagates ⟨10, 20, 1, 5⟩
    (fun _ => .error .connectionError) 0 0 .connectionError rfl⟩

/-- Witness for C8 at a concrete bucket with enough tokens to acquire. -/
theorem claim_C8_try_acquire_witness :
    (let b : TokenBucket := ⟨⟨2, 3, 1, 5⟩, 2, 5⟩
     ((b.try_acquire 5).1 = true ↔ 1 ≤ (b.refill 5).tokens) ∧
     (1 ≤ (b.refill 5).tokens →
       (b.try_acquire 5).2.tokens = (b.refill 5).tokens - 1 ∧
       (b.try_acquire 5).2.config = b.config ∧
       (b.try_acquire 5).2.last_refill = 5) ∧
     ((b.refill 5).tokens < 1 → (b.try_acquire 5).2 = b.refill 5)) :=
  claim_C8_try_acquire ⟨⟨2, 3, 1, 5⟩, 2, 5⟩ 5

/-- **C5 counterexample**: the claim says a policy with non-positive rate,
capacity or backoff base is rejected at construction time.
`TokenBucket.__init__` (and the `RateLimitConfig` dataclass) perform no
validation at all: constructing a bucket from
`requestsPerSecond = -1, burstCapacity = -2, backoffBase = -3` succeeds and
yields a live bucket storing the invalid policy verbatim, with
`tokens = burstCapacity = -2`. -/
theorem claim_C5_counterexample :
    (TokenBucket.init ⟨-1, -2, -3, 5⟩ 0).config = ⟨-1, -2, -3, 5⟩ ∧
    (TokenBucket.init ⟨-1, -2, -3, 5⟩ 0).tokens = -2 :=
  ⟨rfl, by norm_num [TokenBucket.init]⟩

/-- **C5 amended**: no policy is rejected at construction time: for every
policy — non-positive rate, capacity and backoff base included —
`TokenBucket.__init__` accepts it verbatim, storing the config unchanged and
initializing `tokens = burstCapacity` and `last_refill = now`.  No
construction-time validation exists anywhere in the component. -/
theorem claim_C5_no_validation (config : RateLimitConfig) (now : ℚ) :
    (TokenBucket.init config now).config = config ∧
    (TokenBucket.init config now).tokens = (config.burst_capacity : ℚ) ∧
    (TokenBucket.init config now).last_refill = now :=
  ⟨rfl, rfl, rfl⟩

/-! ## The `RateLimiterRegistry`

Keys of the registry dictionaries are the *normalized* service keys, i.e. the
values of `service_key = service_name.lower()` (rate_limit.py, lines 390 and
409); normalization itself is not modelled, so the model's `String` keys
stand for already-lowercased names.

Python object identity of `TokenBucket` instances is modelled by tagging
every constructed bucket with a fresh `Nat` taken from an allocation counter
`next_id`: two buckets are "the identical instance" exactly when their tags
are equal.  `env_calls` counts the invocations of the external configuration
collaborator `get_config_from_env` (which reads `os.environ`; its return
value is the model parameter `env`). -/

/-- Python dict assignment `d[k] = v`, on an association-list model of the
dict: replace the binding if the key is present, else append it. -/
def setEntry {β : Type} (k : String) (v : β) :
    List (String × β) → List (String × β)
  | [] => [(k, v)]
  | (k', v') :: rest =>
    if k' = k then (k, v) :: rest else (k', v') :: setEntry k v rest

/-- Python dict lookup `d.get(k)` / `k in d`, on the association-list model. -/
def getEntry {β : Type} (k : String) : List (String × β) → Option β
  | [] => none
  | (k', v') :: rest => if k' = k then some v' else getEntry k rest

theorem getEntry_setEntry_self {β : Type} (k : String) (v : β)
    (l : List (String × β)) : getEntry k (setEntry k v l) = some v := by
  induction l with
  | nil => simp [setEntry, getEntry]
  | cons p rest ih =>
    obtain ⟨k', v'⟩ := p
    by_cases hk : k' = k
    · simp [setEntry, getEntry, hk]
    · simp [setEntry, getEntry, hk, ih]

theorem getEntry_setEntry_ne {β : Type} (k k' : String) (v : β)
    (l : List (String × β)) (hne : k ≠ k') :
    getEntry k' (setEntry k v l) = getEntry k' l := by
  induction l with
  | nil => simp [setEntry, getEntry, hne]
  | cons p rest ih =>
    obtain ⟨k'', v''⟩ := p
    by_cases hk : k'' = k
    · subst hk
      simp [setEntry, getEntry, hne]
    · simp only [setEntry, if_neg hk]
      by_cases hk2 : k'' = k'
      · simp [getEntry, hk2]
      · simp [getEntry, hk2, ih]

/-- The mutable state of the `RateLimiterRegistry` singleton (rate_limit.py,
lines 360-426): `_limiters` maps a service key to its (tagged) `TokenBucket`,
`_configs` to its explicitly configured `RateLimitConfig`.  `next_id` and
`env_calls` are model bookkeeping (instance identity, collaborator calls),
not Python state. -/
structure RegistryState where
  limiters : List (String × (Nat × TokenBucket))
  configs : List (String × RateLimitConfig)
  next_id : Nat
  env_calls : Nat
deriving Repr

/-- The registry as first constructed (`_limiters = {}`, `_configs = {}`). -/
def RegistryState.empty : RegistryState := ⟨[], [], 0, 0⟩

/-- `RateLimiterRegistry.get_limiter` (lines 381-398), sequential semantics:
if the key has a limiter, return it unchanged; otherwise evaluate
`config = self._configs.get(service_key, get_config_from_env(service_key))`
— Python evaluates the fallback argument *eagerly*, so the external
environment loader runs (and `env_calls` is bumped) on every construction,
even when a stored config exists and its result is discarded — then
construct, store and return a fresh `TokenBucket`. -/
def RegistryState.get_limiter (s : RegistryState)
    (env : String → RateLimitConfig) (now : ℚ) (service_key : String) :
    (Nat × TokenBucket) × RegistryState :=
  match getEntry service_key s.limiters with
  | some entry => (entry, s)
  | none =>
    let env_config := env service_key
    let config := (getEntry service_key s.configs).getD env_config
    let bucket := TokenBucket.init config now
    ((s.next_id, bucket),
      { limiters := setEntry service_key (s.next_id, bucket) s.limiters
        configs := s.configs
        next_id := s.next_id + 1
        env_calls := s.env_calls + 1 })

/-- `RateLimiterRegistry.configure` (lines 400-417): store the policy; if a
limiter already exists for the key, replace it with a freshly constructed
one.  When no limiter exists, only the policy is stored. -/
def RegistryState.configure (s : RegistryState) (now : ℚ)
    (service_key : String) (config : RateLimitConfig) : RegistryState :=
  let s1 := { s with configs := setEntry service_key config s.configs }
  match getEntry service_key s1.limiters with
  | some _ =>
    { s1 with
      limiters :=
        setEntry service_key (s1.next_id, TokenBucket.init config now)
          s1.limiters
      next_id := s1.next_id + 1 }
  | none => s1

/-- `RateLimiterRegistry.reset` (lines 419-426): clear both dictionaries.
(`next_id` and `env_calls` are model bookkeeping, not cleared state.) -/
def RegistryState.reset (s : RegistryState) : RegistryState :=
  { s with limiters := [], configs := [] }

/-- Instance-identity sanity: every bucket tag stored in the registry was
allocated before the current value of the allocation counter. -/
def RegistryState.WF (s : RegistryState) : Prop :=
  ∀ k id b, getEntry k s.limiters = some (id, b) → id < s.next_id

/-- **C6**: `configure(key, newPolicy)` followed by `getBudget(key)` returns
a bucket whose `tokens` equals `newPolicy.burstCapacity` and whose config is
the new policy; the bucket is freshly constructed — its tag is the
allocation counter of the starting state, distinct from the tag of any
bucket previously stored for that key.  When no budget existed for the key,
`configure` only stores the policy, leaving `_limiters` untouched.  The
environment collaborator never influences the result (the conclusion holds
for every `env`). -/
theorem claim_C6_configure_then_get (s : RegistryState) (hwf : s.WF)
    (env : String → RateLimitConfig) (t1 t2 : ℚ) (k : String)
    (c : RateLimitConfig) :
    ((s.configure t1 k c).get_limiter env t2 k).1.2.tokens =
      (c.burst_capacity : ℚ) ∧
    ((s.configure t1 k c).get_limiter env t2 k).1.2.config = c ∧
    ((s.configure t1 k c).get_limiter env t2 k).1.1 = s.next_id ∧
    (∀ oldId oldB, getEntry k s.limiters = some (oldId, oldB) →
      ((s.configure t1 k c).get_limiter env t2 k).1.1 ≠ oldId) ∧
    (getEntry k s.limiters = none →
      (s.configure t1 k c).limiters = s.limiters ∧
      (s.configure t1 k c).configs = setEntry k c s.configs) := by
  rcases Option.eq_none_or_eq_some (getEntry k s.limiters) with he | ⟨e, he⟩
  · have hcfg : s.configure t1 k c =
        { s with configs := setEntry k c s.configs } := by
      simp only [RegistryState.configure]
      rw [he]
    have hmain : (s.configure t1 k c).get_limiter env t2 k =
        ((s.next_id, TokenBucket.init c t2),
          { limiters := setEntry k (s.next_id, TokenBucket.init c t2)
              s.limiters
            configs := setEntry k c s.configs
            next_id := s.next_id + 1
            env_calls := s.env_calls + 1 }) := by
      rw [hcfg]
      simp only [RegistryState.get_limiter]
      rw [he, getEntry_setEntry_self]
      rfl
    rw [hmain]
    refine ⟨rfl, rfl, rfl, ?_, ?_⟩
    · intro oldId oldB hold
      exact Option.noConfusion (he.symm.trans hold)
    · intro _
      rw [hcfg]
      exact ⟨rfl, rfl⟩
  · have hcfg : s.configure t1 k c =
        { limiters := setEntry k (s.next_id, TokenBucket.init c t1) s.limiters
          configs := setEntry k c s.configs
          next_id := s.next_id + 1
          env_calls := s.env_calls } := by
      simp only [RegistryState.configure]
      rw [he]
    have hmain : (s.configure t1 k c).get_limiter env t2 k =
        ((s.next_id, TokenBucket.init c t1),
          { limiters := setEntry k (s.next_id, TokenBucket.init c t1)
              s.limiters
            configs := setEntry k c s.configs
            next_id := s.next_id + 1
            env_calls := s.env_calls }) := by
      rw [hcfg]
      simp only [RegistryState.get_limiter]
      rw [getEntry_setEntry_self]
    rw [hmain]
    refine ⟨rfl, rfl, rfl, ?_, ?_⟩
    · intro oldId oldB hold
      have hlt := hwf k oldId oldB hold
      show s.next_id ≠ oldId
      omega
    · intro hnone
      exact Option.noConfusion (he.symm.trans hnone)

/-- A sample pre-populated registry: "jira" already holds the bucket tagged 0;
the allocation counter is 1. -/
def sampleRegistry : RegistryState :=
  ⟨[("jira", (0, TokenBucket.init ⟨1, 1, 1, 1⟩ 0))], [], 1, 0⟩

/-- A sample environment collaborator, everywhere different from the policies
the witnesses configure explicitly. -/
def sampleEnv : String → RateLimitConfig := fun _ => ⟨99, 7, 9, 9⟩

/-- Witness for C6: reconfiguring "jira" (which holds the bucket tagged 0)
to `burstCapacity = 3` and fetching yields a bucket with 3 tokens, tagged 1,
distinct from the old instance 0. -/
theorem claim_C6_configure_then_get_witness :
    ((sampleRegistry.configure 1 "jira" ⟨2, 3, 1, 5⟩).get_limiter
        sampleEnv 2 "jira").1.2.tokens = 3 ∧
    ((sampleRegistry.configure 1 "jira" ⟨2, 3, 1, 5⟩).get_limiter
        sampleEnv 2 "jira").1.1 = 1 ∧
    ((sampleRegistry.configure 1 "jira" ⟨2, 3, 1, 5⟩).get_limiter
        sampleEnv 2 "jira").1.1 ≠ 0 := by
  have hwf : sampleRegistry.WF := by
    intro k id b h
    simp only [sampleRegistry, getEntry] at h
    split at h
    · simp only [Option.some.injEq, Prod.mk.injEq] at h
      obtain ⟨h1, -⟩ := h
      show id < 1
      omega
    · cases h
  have h := claim_C6_configure_then_get sampleRegistry hwf sampleEnv 1 2
    "jira" ⟨2, 3, 1, 5⟩
  refine ⟨?_, h.2.2.1, ?_⟩
  · rw [h.1]
    norm_num
  · exact h.2.2.2.1 0 (TokenBucket.init ⟨1, 1, 1, 1⟩ 0) rfl

/-- **C10 counterexample**: the claim says the environment collaborator is
consulted only for keys never configured.  After `configure("jira", p)` on a
fresh registry, the first `getBudget("jira")` does use the stored policy `p`
— but it also *invokes* `get_config_from_env` once (result discarded),
because Python evaluates the fallback argument of
`self._configs.get(service_key, get_config_from_env(service_key))` eagerly.
The claim predicts zero environment consultations here; the code makes one. -/
theorem claim_C10_counterexample :
    ((RegistryState.empty.configure 0 "jira" ⟨2, 3, 1, 5⟩).get_limiter
        sampleEnv 1 "jira").1.2.config = ⟨2, 3, 1, 5⟩ ∧
    (RegistryState.empty.configure 0 "jira" ⟨2, 3, 1, 5⟩).env_calls = 0 ∧
    ((RegistryState.empty.configure 0 "jira" ⟨2, 3, 1, 5⟩).get_limiter
        sampleEnv 1 "jira").2.env_calls = 1 :=
  ⟨rfl, rfl, rfl⟩

/-- **C10 amended**: when `configure(key, policy)` precedes the first
`getBudget(key)`, the bucket constructed by that `getBudget` uses the stored
policy — for every environment collaborator, so the environment's *result*
is never used for configured keys — and the environment result is used
exactly for keys with no stored policy; `reset` discards stored policies.
However, the environment collaborator is *invoked* once on every bucket
construction, configured or not (its result discarded when a stored policy
exists), because Python evaluates both arguments of
`self._configs.get(service_key, get_config_from_env(service_key))` before
the call. -/
theorem claim_C10_stored_policy (s : RegistryState)
    (env : String → RateLimitConfig) (now : ℚ) (k : String)
    (hnot : getEntry k s.limiters = none) :
    (∀ c, getEntry k s.configs = some c →
      (s.get_limiter env now k).1.2.config = c) ∧
    (getEntry k s.configs = none →
      (s.get_limiter env now k).1.2.config = env k) ∧
    (s.get_limiter env now k).2.env_calls = s.env_calls + 1 ∧
    getEntry k s.reset.configs = none := by
  refine ⟨?_, ?_, ?_, rfl⟩
  · intro c hc
    simp only [RegistryState.get_limiter]
    rw [hnot, hc]
    rfl
  · intro hc
    simp only [RegistryState.get_limiter]
    rw [hnot, hc]
    rfl
  · simp only [RegistryState.get_limiter]
    rw [hnot]

/-- Witness for the amended C10: after `configure("jira", p)` on a fresh
registry, the first `getBudget("jira")` builds the bucket from `p`, and the
environment call counter goes from 0 to 1. -/
theorem claim_C10_stored_policy_witness :
    getEntry "jira"
      (RegistryState.empty.configure 0 "jira" ⟨2, 3, 1, 5⟩).limiters = none ∧
    getEntry "jira"
      (RegistryState.empty.configure 0 "jira" ⟨2, 3, 1, 5⟩).configs =
        some ⟨2, 3, 1, 5⟩ ∧
    ((RegistryState.empty.configure 0 "jira" ⟨2, 3, 1, 5⟩).get_limiter
        (fun _ => ⟨50, 60, 2, 4⟩) 1 "jira").1.2.config = ⟨2, 3, 1, 5⟩ ∧
    ((RegistryState.empty.configure 0 "jira" ⟨2, 3, 1, 5⟩).get_limiter
        (fun _ => ⟨50, 60, 2, 4⟩) 1 "jira").2.env_calls =
      (RegistryState.empty.configure 0 "jira" ⟨2, 3, 1, 5⟩).env_calls + 1 := by
  have h := claim_C10_stored_policy
    (RegistryState.empty.configure 0 "jira" ⟨2, 3, 1, 5⟩)
    (fun _ => ⟨50, 60, 2, 4⟩) 1 "jira" rfl
  exact ⟨rfl, rfl, h.1 ⟨2, 3, 1, 5⟩ rfl, h.2.2.1⟩

/-! ## Interleaved execution of `get_limiter` (for the concurrency claim)

One thread executing `get_limiter` is split into atomic steps at source-line
granularity — CPython's GIL serializes bytecode but may switch threads
between any two lines, in particular between the membership test and the
assignment: `pc = 0` is the test `service_key not in self._limiters`
(line 391), `pc = 1` the config computation (line 392), `pc = 2` the
construct-and-assign `self._limiters[service_key] = TokenBucket(config)`
(line 393), `pc = 3` the dict read in `return self._limiters[service_key]`
(line 398), and `pc = 4` is done. -/

/-- Thread-local state: program counter, the local variable `config`
(populated at `pc = 1`), and the value eventually returned. -/
structure ThreadState where
  pc : Nat
  config : Option RateLimitConfig
  result : Option (Nat × TokenBucket)
deriving Repr

/-- One atomic step of a thread executing `get_limiter(k)` against the
shared registry `g`.  The `.getD RateLimitConfig.default` at `pc = 2` only
totalizes the model: every execution reaching `pc = 2` has set `config`. -/
def threadStep (env : String → RateLimitConfig) (now : ℚ) (k : String)
    (g : RegistryState) (t : ThreadState) : RegistryState × ThreadState :=
  match t.pc with
  | 0 =>
    match getEntry k g.limiters with
    | some _ => (g, { t with pc := 3 })
    | none => (g, { t with pc := 1 })
  | 1 =>
    ({ g with env_calls := g.env_calls + 1 },
      { t with pc := 2, config := some ((getEntry k g.configs).getD (env k)) })
  | 2 =>
    ({ g with
        limiters := setEntry k
          (g.next_id,
            TokenBucket.init (t.config.getD RateLimitConfig.default) now)
          g.limiters
        next_id := g.next_id + 1 },
      { t with pc := 3 })
  | 3 => (g, { t with pc := 4, result := getEntry k g.limiters })
  | _ => (g, t)

/-- Two threads A and B sharing one registry. -/
structure TwoThreads where
  global : RegistryState
  ta : ThreadState
  tb : ThreadState
deriving Repr

/-- Run a schedule: `true` steps thread A, `false` steps thread B. -/
def runSchedule (env : String → RateLimitConfig) (now : ℚ) (k : String) :
    List Bool → TwoThreads → TwoThreads
  | [], st => st
  | c :: rest, st =>
    if c then
      let p := threadStep env now k st.global st.ta
      runSchedule env now k rest ⟨p.1, p.2, st.tb⟩
    else
      let p := threadStep env now k st.global st.tb
      runSchedule env now k rest ⟨p.1, st.ta, p.2⟩

/-- **C4 counterexample**: `get_limiter` holds no lock (the class `_lock`
only guards `__new__`), so the membership test and the construct-and-assign
of two threads may interleave.  In the schedule below — thread A passes the
membership test, thread B then runs its entire call, then A resumes — two
racing `getBudget("jira")` calls on a fresh registry construct **two**
`TokenBucket` instances (the allocation counter ends at 2, i.e. two
constructor runs), and the callers observe **different** instances (B gets
tag 0, A gets tag 1, which also overwrites tag 0 in the registry).  This
refutes both "at most one RateBudget constructed in total" and "every caller
observes the identical instance". -/
theorem claim_C4_counterexample :
    (runSchedule sampleEnv 0 "jira"
        [true, false, false, false, false, true, true, true]
        ⟨RegistryState.empty, ⟨0, none, none⟩, ⟨0, none, none⟩⟩).global.next_id
      = 2 ∧
    (runSchedule sampleEnv 0 "jira"
        [true, false, false, false, false, true, true, true]
        ⟨RegistryState.empty, ⟨0, none, none⟩, ⟨0, none, none⟩⟩).ta.result
      = some (1, TokenBucket.init (sampleEnv "jira") 0) ∧
    (runSchedule sampleEnv 0 "jira"
        [true, false, false, false, false, true, true, true]
        ⟨RegistryState.empty, ⟨0, none, none⟩, ⟨0, none, none⟩⟩).tb.result
      = some (0, TokenBucket.init (sampleEnv "jira") 0) ∧
    (1 : Nat) ≠ 0 :=
  ⟨rfl, rfl, rfl, one_ne_zero⟩

/-- **C4 amended**: absent synchronization, the at-most-one-construction
guarantee holds only for non-overlapping calls: of two *sequential*
`get_limiter` calls for the same key, the second returns the identical
instance the first returned and constructs nothing; a first call on an
unseen key constructs exactly one bucket, and a call on a seen key
constructs none and returns the stored instance unchanged.  Interleaved
calls can construct two instances and observe different ones (see the
counterexample). -/
theorem claim_C4_sequential_single_instance (s : RegistryState)
    (env : String → RateLimitConfig) (now1 now2 : ℚ) (k : String) :
    ((s.get_limiter env now1 k).2.get_limiter env now2 k).1 =
      (s.get_limiter env now1 k).1 ∧
    ((s.get_limiter env now1 k).2.get_limiter env now2 k).2 =
      (s.get_limiter env now1 k).2 ∧
    (getEntry k s.limiters = none →
      (s.get_limiter env now1 k).2.next_id = s.next_id + 1) ∧
    (∀ e, getEntry k s.limiters = some e →
      (s.get_limiter env now1 k).1 = e ∧ (s.get_limiter env now1 k).2 = s) := by
  cases he : getEntry k s.limiters with
  | some e =>
    have h1 : s.get_limiter env now1 k = (e, s) := by
      simp only [RegistryState.get_limiter]
      rw [he]
    have h2 : s.get_limiter env now2 k = (e, s) := by
      simp only [RegistryState.get_limiter]
      rw [he]
    rw [h1]
    refine ⟨?_, ?_, ?_, ?_⟩
    · show (s.get_limiter env now2 k).1 = e
      rw [h2]
    · show (s.get_limiter env now2 k).2 = s
      rw [h2]
    · intro hnone
      exact Option.noConfusion hnone
    · intro e' he'
      injection he' with h
      subst h
      exact ⟨rfl, rfl⟩
  | none =>
    have h1 : s.get_limiter env now1 k =
        ((s.next_id, TokenBucket.init
            ((getEntry k s.configs).getD (env k)) now1),
          { limiters := setEntry k (s.next_id, TokenBucket.init
              ((getEntry k s.configs).getD (env k)) now1) s.limiters
            configs := s.configs
            next_id := s.next_id + 1
            env_calls := s.env_calls + 1 }) := by
      simp only [RegistryState.get_limiter]
      rw [he]
    have h2 : (RegistryState.mk
          (setEntry k (s.next_id, TokenBucket.init
            ((getEntry k s.configs).getD (env k)) now1) s.limiters)
          s.configs (s.next_id + 1) (s.env_calls + 1)).get_limiter
            env now2 k =
        ((s.next_id, TokenBucket.init
            ((getEntry k s.configs).getD (env k)) now1),
          RegistryState.mk
            (setEntry k (s.next_id, TokenBucket.init
              ((getEntry k s.configs).getD (env k)) now1) s.limiters)
            s.configs (s.next_id + 1) (s.env_calls + 1)) := by
      simp only [RegistryState.get_limiter]
      rw [getEntry_setEntry_self]
    rw [h1]
    dsimp only
    refine ⟨?_, ?_, fun _ => rfl, ?_⟩
    · rw [h2]
    · rw [h2]
    · intro e' he'
      exact Option.noConfusion he'

/-- Witness for the amended C4: two sequential `getBudget("jira")` calls on a
fresh registry return the identical tagged instance, with exactly one
construction (the counter goes 0 to 1 and stays there). -/
theorem claim_C4_sequential_single_instance_witness :
    getEntry "jira" RegistryState.empty.limiters = none ∧
    ((RegistryState.empty.get_limiter sampleEnv 0 "jira").2.get_limiter
        sampleEnv 1 "jira").1 =
      (RegistryState.empty.get_limiter sampleEnv 0 "jira").1 ∧
    (RegistryState.empty.get_limiter sampleEnv 0 "jira").2.next_id =
      RegistryState.empty.next_id + 1 ∧
    ((RegistryState.empty.get_limiter sampleEnv 0 "jira").2.get_limiter
        sampleEnv 1 "jira").2.next_id = RegistryState.empty.next_id + 1 := by
  have h := claim_C4_sequential_single_instance RegistryState.empty sampleEnv
    0 1 "jira"
  refine ⟨rfl, h.1, h.2.2.1 rfl, ?_⟩
  rw [h.2.1]
  exact h.2.2.1 rfl

end RateLimit
